import Mathlib

/-!
Verification of the broker relay in `mcp-server/broker.py`.

The broker correlates asynchronous JSON-RPC requests from producers (the MCP
server posting to `/request`) with responses delivered out-of-band by a single
consumer (the Lightroom plugin), over two transports: HTTP long-polling
(`/poll` + `/response`) and a persistent newline-delimited socket stream.

This file is a shallow embedding of that Python module: the module-level
mutable globals (`pending_requests`, `request_queue`, `broker_stats`,
`socket_client`) become an explicit state record, and each handler becomes a
pure state-transforming function.  The blocking `handle_request` handler is
split into its two phases around `response_event.wait`: a submit phase
(registration + enqueue) and a completion phase (pop + branch on the wait
result), with the wait result passed explicitly.  Wall-clock instants and
millisecond latencies are embedded as exact rationals.
-/

namespace LrBroker

/-! ## JSON values

The broker treats payloads as opaque Python dicts parsed from JSON; only the
top-level keys `_broker_uuid`, `method` and `id` are ever inspected.  A JSON
object is embedded as an association list of string keys (Python dicts have
unique keys; the operations below implement dict semantics on such lists). -/

inductive JVal where
  | jnull : JVal
  | jbool : Bool → JVal
  | jnum : Int → JVal
  | jstr : String → JVal
  | jobj : List (String × JVal) → JVal

/-- A top-level JSON object (a Python dict), as an association list. -/
abbrev JObj := List (String × JVal)

/-- Python truthiness of a JSON value (`if not x` checks in the handlers). -/
def jvalTruthy : JVal → Bool
  | JVal.jnull => false
  | JVal.jbool b => b
  | JVal.jnum n => n != 0
  | JVal.jstr s => s != ""
  | JVal.jobj l => !l.isEmpty

/-! ## Association-list dictionary operations -/

/-- Dictionary lookup: `d[k]` / `d.get(k)`. -/
def alistLookup {α : Type} (k : String) : List (String × α) → Option α
  | [] => none
  | (k', v) :: rest => if k' = k then some v else alistLookup k rest

/-- Dictionary assignment `d[k] = v`: replace in place if the key exists,
otherwise append. -/
def alistInsert {α : Type} (k : String) (v : α) : List (String × α) → List (String × α)
  | [] => [(k, v)]
  | (k', v') :: rest => if k' = k then (k, v) :: rest else (k', v') :: alistInsert k v rest

/-- Key removal, as performed by `d.pop(k, None)`: drop every entry with key
`k` (on unique-key dicts this is the single popped entry). -/
def alistErase {α : Type} (k : String) : List (String × α) → List (String × α)
  | [] => []
  | (k', v') :: rest => if k' = k then alistErase k rest else (k', v') :: alistErase k rest

/-! ## Configuration constants (broker.py lines 38-44) -/

/-- Seconds a producer blocks in `/request` before timing out. -/
def REQUEST_TIMEOUT : ℚ := 30

/-- Seconds without consumer activity before Lightroom counts as disconnected. -/
def LR_CONNECTION_TIMEOUT : ℚ := 5

/-- Capacity of the `recent_requests` ring buffer (`deque(maxlen=100)`). -/
def RECENT_REQUESTS_CAP : Nat := 100

/-! ## History records and broker statistics (broker.py lines 64-77) -/

/-- One entry of `broker_stats["recent_requests"]`, as appended by
`handle_request` on either outcome (lines 293-302 and 337-345). -/
structure HistRecord where
  uuid : String
  method : JVal
  latency_ms : ℚ
  success : Bool
  error : Option String
  timestamp : ℚ
  request_payload : JObj
  response_payload : JObj

/-- The `broker_stats` dict.  `recent_logs` is omitted (log text only). -/
structure Stats where
  started_at : Option ℚ
  lightroom_connected : Bool
  lightroom_last_poll : Option ℚ
  requests_total : Nat
  requests_success : Nat
  requests_failed : Nat
  requests_timeout : Nat
  avg_latency_ms : ℚ
  total_latency_ms : ℚ
  recent_requests : List HistRecord

/-- Initial value of `broker_stats` (lines 64-76). -/
def initStats : Stats :=
  { started_at := none
    lightroom_connected := false
    lightroom_last_poll := none
    requests_total := 0
    requests_success := 0
    requests_failed := 0
    requests_timeout := 0
    avg_latency_ms := 0
    total_latency_ms := 0
    recent_requests := [] }

/-- Append to a `deque(maxlen=cap)`: when the deque is full the leftmost
(oldest) element is discarded. -/
def dequePush {α : Type} (cap : Nat) (q : List α) (x : α) : List α :=
  if q.length < cap then q ++ [x] else q.tail ++ [x]

/-- Python banker-style rounding is below this embedding's resolution;
`round(x, 2)` is embedded as exact rational rounding to centi-units. -/
def round2 (q : ℚ) : ℚ := (round (q * 100) : ℤ) / 100

/-- Success branch of the stats update in `handle_request` (lines 333-345):
increment the success counter, fold the latency into the accumulated total,
recompute the running mean from the total, append a history record. -/
def statsRecordSuccess (latency : ℚ) (r : HistRecord) (s : Stats) : Stats :=
  let succ := s.requests_success + 1
  let total := s.total_latency_ms + latency
  { s with
    requests_success := succ
    total_latency_ms := total
    avg_latency_ms := total / (succ : ℚ)
    recent_requests := dequePush RECENT_REQUESTS_CAP s.recent_requests r }

/-- Timeout branch of the stats update in `handle_request` (lines 291-302):
increment the timeout counter and append a history record. -/
def statsRecordTimeout (r : HistRecord) (s : Stats) : Stats :=
  { s with
    requests_timeout := s.requests_timeout + 1
    recent_requests := dequePush RECENT_REQUESTS_CAP s.recent_requests r }

/-- Exception branch of `handle_request` (lines 371-372): failure counter only. -/
def statsRecordFailure (s : Stats) : Stats :=
  { s with requests_failed := s.requests_failed + 1 }

/-- In-memory effect of `load_history` (lines 112-115): clear the buffer, then
append each loaded record in order.  The decoded file contents are the
argument. -/
def load_history (rs : List HistRecord) (s : Stats) : Stats :=
  { s with recent_requests := rs.foldl (dequePush RECENT_REQUESTS_CAP) [] }

/-- In-memory effect of `api_history_clear` (lines 526-527). -/
def clear_history (s : Stats) : Stats :=
  { s with recent_requests := [] }

/-- The operations that touch `broker_stats`' counters and history buffer. -/
inductive StatsOp where
  | recordSuccess (latency : ℚ) (r : HistRecord)
  | recordTimeout (r : HistRecord)
  | recordFailure
  | loadHistory (rs : List HistRecord)
  | clearHistory

def applyStatsOp (op : StatsOp) (s : Stats) : Stats :=
  match op with
  | StatsOp.recordSuccess latency r => statsRecordSuccess latency r s
  | StatsOp.recordTimeout r => statsRecordTimeout r s
  | StatsOp.recordFailure => statsRecordFailure s
  | StatsOp.loadHistory rs => load_history rs s
  | StatsOp.clearHistory => clear_history s

def runStats (s : Stats) : List StatsOp → Stats
  | [] => s
  | op :: ops => runStats (applyStatsOp op s) ops

/-- Latencies of the success records in an operation sequence, in order. -/
def successLatencies : List StatsOp → List ℚ
  | [] => []
  | StatsOp.recordSuccess latency _ :: ops => latency :: successLatencies ops
  | _ :: ops => successLatencies ops

/-! ## The relay core: pending registry, queue, broker state -/

/-- One entry of `pending_requests` (broker.py lines 250-255).  The
`threading.Event` is embedded as a Bool flag: `event = true` iff `event.set()`
has been called. -/
structure PendingEntry where
  request : JObj
  response : Option JObj
  event : Bool
  started_at : ℚ

/-- The broker's mutable module-level state: `pending_requests` (a dict keyed
by correlation uuid), `request_queue` (a deque, head = leftmost),
`broker_stats`, and the authoritative `socket_client` slot (embedded as an
abstract connection handle). -/
structure BrokerState where
  pending : List (String × PendingEntry)
  queue : List JObj
  stats : Stats
  socket_client : Option Nat

def initBroker : BrokerState :=
  { pending := [], queue := [], stats := initStats, socket_client := none }

/-- First phase of `handle_request` (lines 241-264), for a valid JSON body:
tag the payload with the fresh correlation uuid, register a pending entry with
an unset event and empty response slot, enqueue the tagged payload for the
consumer, and count the request.  The uuid (`str(uuid.uuid4())` in the source)
is a parameter. -/
def submitPhase (uuid : String) (payload : JObj) (now : ℚ) (st : BrokerState) : BrokerState :=
  let reqData := alistInsert "_broker_uuid" (JVal.jstr uuid) payload
  { st with
    pending := alistInsert uuid
      { request := reqData, response := none, event := false, started_at := now } st.pending
    queue := st.queue ++ [reqData]
    stats := { st.stats with requests_total := st.stats.requests_total + 1 } }

/-- Outcome returned to the producer by `handle_request`. -/
inductive ReqOutcome where
  | resolved (payload : JObj)
  | timeout (err : JObj)

/-- HTTP status code attached to each outcome (lines 324 and 367). -/
def outcomeCode : ReqOutcome → Nat
  | ReqOutcome.resolved _ => 200
  | ReqOutcome.timeout _ => 504

/-- The structured timeout error body built at lines 285-289. -/
def timeoutErrorResponse (reqData : JObj) : JObj :=
  [("jsonrpc", JVal.jstr "2.0"),
   ("error", JVal.jobj [("code", JVal.jnum (-32000)),
                        ("message", JVal.jstr "Request timeout - Lightroom not responding")]),
   ("id", (alistLookup "id" reqData).getD JVal.jnull)]

/-- The `method` value stored in stats records: `request_data.get("method", "unknown")`. -/
def methodOf (reqData : JObj) : JVal :=
  (alistLookup "method" reqData).getD (JVal.jstr "unknown")

/-- Timeout branch of `handle_request` (lines 282-324): build the error body,
record the timeout in stats with a fixed latency of `REQUEST_TIMEOUT` seconds,
and return the 504 outcome.  The pending entry has already been popped. -/
def timeoutOutcome (uuid : String) (reqData : JObj) (now : ℚ) (st : BrokerState) :
    BrokerState × ReqOutcome :=
  let displayRequest := alistErase "_broker_uuid" reqData
  let errResp := timeoutErrorResponse reqData
  let r : HistRecord :=
    { uuid := uuid, method := methodOf reqData, latency_ms := REQUEST_TIMEOUT * 1000
      success := false, error := some "timeout", timestamp := now
      request_payload := displayRequest, response_payload := errResp }
  ({ st with stats := statsRecordTimeout r st.stats }, ReqOutcome.timeout errResp)

/-- Second phase of `handle_request` (lines 277-367), entered when
`response_event.wait(REQUEST_TIMEOUT)` returns `gotResponse`: pop the pending
entry, then either return the stored response (200) or take the timeout branch
(504).  The timeout branch fires when the wait expired, the entry is missing,
or the stored response is falsy (`not pending_data.get("response")`, which is
also true for an empty response dict). -/
def completePhase (uuid : String) (reqData : JObj) (gotResponse : Bool) (now : ℚ)
    (st : BrokerState) : BrokerState × ReqOutcome :=
  let pendingData := alistLookup uuid st.pending
  let st' := { st with pending := alistErase uuid st.pending }
  match pendingData with
  | none => timeoutOutcome uuid reqData now st'
  | some e =>
      match e.response with
      | none => timeoutOutcome uuid reqData now st'
      | some resp =>
          if gotResponse && !resp.isEmpty then
            let latency := (now - e.started_at) * 1000
            let r : HistRecord :=
              { uuid := uuid, method := methodOf reqData, latency_ms := round2 latency
                success := true, error := none, timestamp := now
                request_payload := alistErase "_broker_uuid" reqData
                response_payload := resp }
            ({ st' with stats := statsRecordSuccess latency r st'.stats },
             ReqOutcome.resolved resp)
          else timeoutOutcome uuid reqData now st'

/-- HTTP result of the `/response` endpoint. -/
inductive RespResult where
  | invalidJson
  | missingId
  | ok
  | unknownId

/-- HTTP status code of each `/response` result (lines 421, 426, 433, 436). -/
def respCode : RespResult → Nat
  | RespResult.invalidJson => 400
  | RespResult.missingId => 400
  | RespResult.ok => 200
  | RespResult.unknownId => 404

/-- Entry update performed when a resolution is accepted (lines 430-431 and
742-744): store the response body in the entry's slot and set its event. -/
def resolveEntry (msg : JObj) (e : PendingEntry) : PendingEntry :=
  { e with response := some (alistErase "_broker_uuid" msg), event := true }

/-- The `/response` endpoint `handle_response` (lines 412-436): pop the
`_broker_uuid` key from the body; reject a falsy body (400) or a falsy popped
id (400); if the id is a string currently pending, store the remaining body in
the entry's response slot and set its event (200); otherwise reject as unknown
with no state change (404).  A truthy non-string id misses the string-keyed
dict and is likewise unknown. -/
def handle_response (msg : JObj) (st : BrokerState) : BrokerState × RespResult :=
  if msg.isEmpty then (st, RespResult.invalidJson)
  else
    match alistLookup "_broker_uuid" msg with
    | none => (st, RespResult.missingId)
    | some v =>
        if jvalTruthy v then
          match v with
          | JVal.jstr u =>
              match alistLookup u st.pending with
              | some e =>
                  ({ st with pending := alistInsert u (resolveEntry msg e) st.pending },
                   RespResult.ok)
              | none => (st, RespResult.unknownId)
          | _ => (st, RespResult.unknownId)
        else (st, RespResult.missingId)

/-- Result of processing one inbound socket frame. -/
inductive SockMsgResult where
  | resolvedOk
  | unknownId
  | missingId

/-- The socket-transport resolver `handle_socket_message` (lines 735-749):
if the frame carries a `_broker_uuid` key whose value is a currently pending
string id, store the rest of the frame as the response and set the event;
otherwise log and discard with no state change. -/
def handle_socket_message (msg : JObj) (st : BrokerState) : BrokerState × SockMsgResult :=
  match alistLookup "_broker_uuid" msg with
  | some v =>
      match v with
      | JVal.jstr u =>
          match alistLookup u st.pending with
          | some e =>
              ({ st with pending := alistInsert u (resolveEntry msg e) st.pending },
               SockMsgResult.resolvedOk)
          | none => (st, SockMsgResult.unknownId)
      | _ => (st, SockMsgResult.unknownId)
  | none => (st, SockMsgResult.missingId)

/-! ## Delivery queue (the `request_queue` deque) -/

/-- Re-insertion at the head: `request_queue.appendleft(x)` (line 716). -/
def queuePushFront (x : JObj) (q : List JObj) : List JObj := x :: q

/-- One iteration of the socket session's send side (lines 702-718): pop the
head if any and attempt the write.  Returns the new queue, the delivered item,
and whether the session loop breaks (write failure, after the popped item has
been pushed back to the front).  On failure the dequeued item is re-inserted
via `appendleft` before the `finally` teardown runs. -/
def socketSendStep (writeOk : Bool) (q : List JObj) : List JObj × Option JObj × Bool :=
  match q with
  | [] => ([], none, false)
  | x :: rest =>
      if writeOk then (rest, some x, false)
      else (queuePushFront x rest, none, true)

/-- The dequeue side of `/poll` (lines 402-409): pop the head if any. -/
def handle_poll_dequeue (q : List JObj) : List JObj × Option JObj :=
  match q with
  | [] => ([], none)
  | x :: rest => (rest, some x)

/-- Operations applied to `request_queue` by the three call sites: producer
enqueue (line 259), long-poll dequeue (line 404), socket dequeue + write
(lines 704-717). -/
inductive QueueOp where
  | push (x : JObj)
  | pollPop
  | socketPop (writeOk : Bool)

/-- Step of the queue trace semantics: new queue plus the item delivered to
the consumer by this operation, if any. -/
def queueStep (q : List JObj) : QueueOp → List JObj × Option JObj
  | QueueOp.push x => (q ++ [x], none)
  | QueueOp.pollPop => handle_poll_dequeue q
  | QueueOp.socketPop writeOk =>
      let r := socketSendStep writeOk q
      (r.1, r.2.1)

/-- Run a queue trace: final queue and the sequence of delivered items. -/
def runQueue (q : List JObj) : List QueueOp → List JObj × List JObj
  | [] => (q, [])
  | op :: ops =>
      let s := queueStep q op
      let r := runQueue s.1 ops
      (r.1, s.2.toList ++ r.2)

/-- The items pushed by a queue trace, in push order. -/
def pushedOf : List QueueOp → List JObj
  | [] => []
  | QueueOp.push x :: ops => x :: pushedOf ops
  | _ :: ops => pushedOf ops

/-! ## Liveness monitoring -/

/-- The liveness check `update_lr_connection_status` (lines 196-223): if a
last-poll time exists, recompute connectedness from its age and store it;
the Bool result records whether a transition event was broadcast, which the
source does exactly when the stored value changed. -/
def update_lr_connection_status (now : ℚ) (s : Stats) : Stats × Bool :=
  match s.lightroom_last_poll with
  | none => (s, false)
  | some lastPoll =>
      let isConnected := decide (now - lastPoll < LR_CONNECTION_TIMEOUT)
      ({ s with lightroom_connected := isConnected },
       s.lightroom_connected != isConnected)

/-- The activity part of `/poll` (lines 382-397): stamp the last-poll time,
mark connected, and broadcast a transition event exactly when the stored
value was disconnected. -/
def handle_poll_status (now : ℚ) (s : Stats) : Stats × Bool :=
  ({ s with lightroom_last_poll := some now, lightroom_connected := true },
   !s.lightroom_connected)

/-- Periodic activity stamp inside the socket session loop (lines 697-699). -/
def socketLoopActivity (now : ℚ) (st : BrokerState) : BrokerState :=
  { st with stats := { st.stats with lightroom_last_poll := some now } }

/-- Socket-session teardown, the `finally` block at lines 723-732: release the
authoritative slot.  Nothing else in the broker state is touched — in
particular `lightroom_last_poll` and `lightroom_connected` keep their values. -/
def socketTeardown (st : BrokerState) : BrokerState :=
  { st with socket_client := none }

/-! ## Dictionary lemmas -/

theorem alistLookup_insert_self {α : Type} (k : String) (v : α) (l : List (String × α)) :
    alistLookup k (alistInsert k v l) = some v := by
  induction l with
  | nil => simp [alistInsert, alistLookup]
  | cons hd tl ih =>
      obtain ⟨k', v'⟩ := hd
      by_cases h : k' = k
      · simp [alistInsert, alistLookup, h]
      · simp [alistInsert, alistLookup, h, ih]

theorem alistLookup_insert_ne {α : Type} {k₁ k₂ : String} (h : k₁ ≠ k₂) (v : α)
    (l : List (String × α)) :
    alistLookup k₁ (alistInsert k₂ v l) = alistLookup k₁ l := by
  induction l with
  | nil => simp [alistInsert, alistLookup, Ne.symm h]
  | cons hd tl ih =>
      obtain ⟨k', v'⟩ := hd
      by_cases hk : k' = k₂
      · subst hk
        simp [alistInsert, alistLookup, Ne.symm h]
      · simp [alistInsert, alistLookup, hk, ih]

theorem alistLookup_erase_self {α : Type} (k : String) (l : List (String × α)) :
    alistLookup k (alistErase k l) = none := by
  induction l with
  | nil => simp [alistErase, alistLookup]
  | cons hd tl ih =>
      obtain ⟨k', v'⟩ := hd
      by_cases h : k' = k
      · simp [alistErase, h, ih]
      · simp [alistErase, alistLookup, h, ih]

theorem alistLookup_erase_ne {α : Type} {k₁ k₂ : String} (h : k₁ ≠ k₂)
    (l : List (String × α)) :
    alistLookup k₁ (alistErase k₂ l) = alistLookup k₁ l := by
  induction l with
  | nil => simp [alistErase]
  | cons hd tl ih =>
      obtain ⟨k', v'⟩ := hd
      by_cases hk : k' = k₂
      · subst hk
        simp [alistErase, alistLookup, Ne.symm h, ih]
      · simp [alistErase, alistLookup, hk, ih]

theorem alistErase_insert {α : Type} (k : String) (v : α) (l : List (String × α)) :
    alistErase k (alistInsert k v l) = alistErase k l := by
  induction l with
  | nil => simp [alistInsert, alistErase]
  | cons hd tl ih =>
      obtain ⟨k', v'⟩ := hd
      by_cases h : k' = k
      · simp [alistInsert, alistErase, h]
      · simp [alistInsert, alistErase, h, ih]

theorem alistErase_of_lookup_none {α : Type} {k : String} {l : List (String × α)}
    (h : alistLookup k l = none) : alistErase k l = l := by
  induction l with
  | nil => simp [alistErase]
  | cons hd tl ih =>
      obtain ⟨k', v'⟩ := hd
      by_cases hk : k' = k
      · simp [alistLookup, hk] at h
      · simp [alistLookup, hk] at h
        simp [alistErase, hk, ih h]

theorem lookup_some_not_isEmpty {α : Type} {k : String} {l : List (String × α)} {v : α}
    (h : alistLookup k l = some v) : l.isEmpty = false := by
  cases l with
  | nil => simp [alistLookup] at h
  | cons hd tl => rfl

theorem alistInsert_not_isEmpty {α : Type} (k : String) (v : α) (l : List (String × α)) :
    (alistInsert k v l).isEmpty = false := by
  cases l with
  | nil => rfl
  | cons hd tl =>
      obtain ⟨k', v'⟩ := hd
      by_cases h : k' = k <;> simp [alistInsert, h]

/-! ## Handler reduction lemmas -/

theorem handle_response_found {u : String} {msg : JObj} {st : BrokerState} {e : PendingEntry}
    (hu : u ≠ "")
    (hm : alistLookup "_broker_uuid" msg = some (JVal.jstr u))
    (hp : alistLookup u st.pending = some e) :
    handle_response msg st =
      ({ st with pending := alistInsert u (resolveEntry msg e) st.pending }, RespResult.ok) := by
  have hne := lookup_some_not_isEmpty hm
  simp [handle_response, hne, hm, hp, jvalTruthy, hu]

theorem handle_response_unknown {u : String} {msg : JObj} {st : BrokerState}
    (hu : u ≠ "")
    (hm : alistLookup "_broker_uuid" msg = some (JVal.jstr u))
    (hp : alistLookup u st.pending = none) :
    handle_response msg st = (st, RespResult.unknownId) := by
  have hne := lookup_some_not_isEmpty hm
  simp [handle_response, hne, hm, hp, jvalTruthy, hu]

theorem handle_socket_message_unknown {u : String} {msg : JObj} {st : BrokerState}
    (hm : alistLookup "_broker_uuid" msg = some (JVal.jstr u))
    (hp : alistLookup u st.pending = none) :
    handle_socket_message msg st = (st, SockMsgResult.unknownId) := by
  simp [handle_socket_message, hm, hp]

theorem completePhase_pending (uuid : String) (reqData : JObj) (got : Bool) (now : ℚ)
    (st : BrokerState) :
    (completePhase uuid reqData got now st).1.pending = alistErase uuid st.pending := by
  rcases h : alistLookup uuid st.pending with _ | e
  · simp [completePhase, h, timeoutOutcome, statsRecordTimeout]
  · rcases hr : e.response with _ | resp
    · simp [completePhase, h, hr, timeoutOutcome, statsRecordTimeout]
    · by_cases hg : got && !resp.isEmpty
      · simp [completePhase, h, hr, hg, statsRecordSuccess]
      · simp [completePhase, h, hr, hg, timeoutOutcome, statsRecordTimeout]

theorem completePhase_resolved {uuid : String} {st : BrokerState} {e : PendingEntry} {resp : JObj}
    (reqData : JObj) (now : ℚ)
    (hp : alistLookup uuid st.pending = some e)
    (hr : e.response = some resp)
    (hne : resp.isEmpty = false) :
    (completePhase uuid reqData true now st).2 = ReqOutcome.resolved resp := by
  simp [completePhase, hp, hr, hne]

theorem submitPhase_lookup_self (uuid : String) (payload : JObj) (now : ℚ) (st : BrokerState) :
    alistLookup uuid (submitPhase uuid payload now st).pending
      = some { request := alistInsert "_broker_uuid" (JVal.jstr uuid) payload
               response := none, event := false, started_at := now } := by
  simp [submitPhase]
  exact alistLookup_insert_self _ _ _

theorem submitPhase_lookup_other {w uuid : String} (hw : w ≠ uuid) (payload : JObj) (now : ℚ)
    (st : BrokerState) :
    alistLookup w (submitPhase uuid payload now st).pending = alistLookup w st.pending := by
  simp [submitPhase]
  exact alistLookup_insert_ne hw _ _

theorem handle_response_lookup_self {u : String} {msg : JObj} {st : BrokerState} {e : PendingEntry}
    (hu : u ≠ "")
    (hm : alistLookup "_broker_uuid" msg = some (JVal.jstr u))
    (hp : alistLookup u st.pending = some e) :
    alistLookup u (handle_response msg st).1.pending = some (resolveEntry msg e) := by
  rw [handle_response_found hu hm hp]
  exact alistLookup_insert_self _ _ _

theorem handle_response_lookup_other {w u : String} {msg : JObj} {st : BrokerState}
    {e : PendingEntry} (hw : w ≠ u) (hu : u ≠ "")
    (hm : alistLookup "_broker_uuid" msg = some (JVal.jstr u))
    (hp : alistLookup u st.pending = some e) :
    alistLookup w (handle_response msg st).1.pending = alistLookup w st.pending := by
  rw [handle_response_found hu hm hp]
  exact alistLookup_insert_ne hw _ _

theorem completePhase_lookup_other {w uuid : String} (hw : w ≠ uuid) (reqData : JObj)
    (got : Bool) (now : ℚ) (st : BrokerState) :
    alistLookup w (completePhase uuid reqData got now st).1.pending
      = alistLookup w st.pending := by
  rw [completePhase_pending]
  exact alistLookup_erase_ne hw _

/-! ## Claim theorems -/

/-- C1: every request submitted through the valid-JSON submit path ends in
exactly one of two outcomes — the producer receives the resolved response
payload with HTTP 200, or the producer receives the structured timeout error
with HTTP 504 and the timeout counter incremented by one; never both and
never neither.  The completion phase of `handle_request` is a total function
into these two outcomes, and the two disjuncts below are mutually
exclusive. -/
theorem c1_request_exactly_one_outcome (uuid : String) (reqData : JObj) (got : Bool) (now : ℚ)
    (st : BrokerState) :
    ((∃ p, (completePhase uuid reqData got now st).2 = ReqOutcome.resolved p) ∧
      ¬(∃ err, (completePhase uuid reqData got now st).2 = ReqOutcome.timeout err) ∧
      outcomeCode (completePhase uuid reqData got now st).2 = 200 ∧
      (completePhase uuid reqData got now st).1.stats.requests_timeout
        = st.stats.requests_timeout)
    ∨ ((∃ err, (completePhase uuid reqData got now st).2 = ReqOutcome.timeout err) ∧
      ¬(∃ p, (completePhase uuid reqData got now st).2 = ReqOutcome.resolved p) ∧
      outcomeCode (completePhase uuid reqData got now st).2 = 504 ∧
      (completePhase uuid reqData got now st).1.stats.requests_timeout
        = st.stats.requests_timeout + 1) := by
  rcases h : alistLookup uuid st.pending with _ | e
  · right
    simp [completePhase, h, timeoutOutcome, statsRecordTimeout, outcomeCode]
  · rcases hr : e.response with _ | resp
    · right
      simp [completePhase, h, hr, timeoutOutcome, statsRecordTimeout, outcomeCode]
    · cases hg : got && !resp.isEmpty
      · right
        simp [completePhase, h, hr, hg, timeoutOutcome, statsRecordTimeout, outcomeCode]
      · left
        simp [completePhase, h, hr, hg, statsRecordSuccess, outcomeCode]

/-- C2: responses are delivered only to the producer that owns the matching
correlation id.  Scenario of spec section 8 item 3: producers C and D submit
concurrently, the consumer resolves D first and then C (each response tagged
with its own id); C's completion still returns exactly C's response body and
D's completion returns exactly D's, regardless of the resolution order. -/
theorem c2_no_cross_delivery
    (cu du : String) (cp dp cresp dresp : JObj) (n1 n2 n3 n4 : ℚ) (st0 : BrokerState)
    (hne : cu ≠ du) (hcu : cu ≠ "") (hdu : du ≠ "")
    (hcr : cresp.isEmpty = false) (hdr : dresp.isEmpty = false)
    (hcrid : alistLookup "_broker_uuid" cresp = none)
    (hdrid : alistLookup "_broker_uuid" dresp = none) :
    (completePhase cu (alistInsert "_broker_uuid" (JVal.jstr cu) cp) true n3
        (handle_response (alistInsert "_broker_uuid" (JVal.jstr cu) cresp)
          (handle_response (alistInsert "_broker_uuid" (JVal.jstr du) dresp)
            (submitPhase du dp n2 (submitPhase cu cp n1 st0))).1).1).2
      = ReqOutcome.resolved cresp ∧
    (completePhase du (alistInsert "_broker_uuid" (JVal.jstr du) dp) true n4
        (completePhase cu (alistInsert "_broker_uuid" (JVal.jstr cu) cp) true n3
          (handle_response (alistInsert "_broker_uuid" (JVal.jstr cu) cresp)
            (handle_response (alistInsert "_broker_uuid" (JVal.jstr du) dresp)
              (submitPhase du dp n2 (submitPhase cu cp n1 st0))).1).1).1).2
      = ReqOutcome.resolved dresp := by
  have hdc : du ≠ cu := Ne.symm hne
  have hmC : alistLookup "_broker_uuid" (alistInsert "_broker_uuid" (JVal.jstr cu) cresp)
      = some (JVal.jstr cu) := alistLookup_insert_self _ _ _
  have hmD : alistLookup "_broker_uuid" (alistInsert "_broker_uuid" (JVal.jstr du) dresp)
      = some (JVal.jstr du) := alistLookup_insert_self _ _ _
  have heraseC : alistErase "_broker_uuid" (alistInsert "_broker_uuid" (JVal.jstr cu) cresp)
      = cresp := by rw [alistErase_insert, alistErase_of_lookup_none hcrid]
  have heraseD : alistErase "_broker_uuid" (alistInsert "_broker_uuid" (JVal.jstr du) dresp)
      = dresp := by rw [alistErase_insert, alistErase_of_lookup_none hdrid]
  have hpC2 : alistLookup cu (submitPhase du dp n2 (submitPhase cu cp n1 st0)).pending
      = some { request := alistInsert "_broker_uuid" (JVal.jstr cu) cp
               response := none, event := false, started_at := n1 } := by
    rw [submitPhase_lookup_other hne, submitPhase_lookup_self]
  have hpD2 : alistLookup du (submitPhase du dp n2 (submitPhase cu cp n1 st0)).pending
      = some { request := alistInsert "_broker_uuid" (JVal.jstr du) dp
               response := none, event := false, started_at := n2 } :=
    submitPhase_lookup_self _ _ _ _
  have hpC3 : alistLookup cu
      (handle_response (alistInsert "_broker_uuid" (JVal.jstr du) dresp)
        (submitPhase du dp n2 (submitPhase cu cp n1 st0))).1.pending
      = some { request := alistInsert "_broker_uuid" (JVal.jstr cu) cp
               response := none, event := false, started_at := n1 } := by
    rw [handle_response_lookup_other hne hdu hmD hpD2, hpC2]
  have hpD3 := handle_response_lookup_self hdu hmD hpD2
  have hpC4 := handle_response_lookup_self hcu hmC hpC3
  have hpD4 : alistLookup du
      (handle_response (alistInsert "_broker_uuid" (JVal.jstr cu) cresp)
        (handle_response (alistInsert "_broker_uuid" (JVal.jstr du) dresp)
          (submitPhase du dp n2 (submitPhase cu cp n1 st0))).1).1.pending
      = some (resolveEntry (alistInsert "_broker_uuid" (JVal.jstr du) dresp)
          { request := alistInsert "_broker_uuid" (JVal.jstr du) dp
            response := none, event := false, started_at := n2 }) := by
    rw [handle_response_lookup_other hdc hcu hmC hpC3, hpD3]
  refine ⟨completePhase_resolved _ n3 hpC4 (by simp [resolveEntry, heraseC]) hcr, ?_⟩
  have hpD5 : alistLookup du
      (completePhase cu (alistInsert "_broker_uuid" (JVal.jstr cu) cp) true n3
        (handle_response (alistInsert "_broker_uuid" (JVal.jstr cu) cresp)
          (handle_response (alistInsert "_broker_uuid" (JVal.jstr du) dresp)
            (submitPhase du dp n2 (submitPhase cu cp n1 st0))).1).1).1.pending
      = some (resolveEntry (alistInsert "_broker_uuid" (JVal.jstr du) dresp)
          { request := alistInsert "_broker_uuid" (JVal.jstr du) dp
            response := none, event := false, started_at := n2 }) := by
    rw [completePhase_lookup_other hdc, hpD4]
  exact completePhase_resolved _ n4 hpD5 (by simp [resolveEntry, heraseD]) hdr

/-- Witness for C2 at concrete inputs: a ping and an info request, with the
consumer's two responses resolved in reverse order. -/
theorem c2_no_cross_delivery_witness :
    (completePhase "c-uuid" (alistInsert "_broker_uuid" (JVal.jstr "c-uuid")
          [("method", JVal.jstr "ping")]) true 1
        (handle_response (alistInsert "_broker_uuid" (JVal.jstr "c-uuid")
            [("result", JVal.jstr "pong-c")])
          (handle_response (alistInsert "_broker_uuid" (JVal.jstr "d-uuid")
              [("result", JVal.jstr "pong-d")])
            (submitPhase "d-uuid" [("method", JVal.jstr "info")] 0
              (submitPhase "c-uuid" [("method", JVal.jstr "ping")] 0 initBroker))).1).1).2
      = ReqOutcome.resolved [("result", JVal.jstr "pong-c")] ∧
    (completePhase "d-uuid" (alistInsert "_broker_uuid" (JVal.jstr "d-uuid")
          [("method", JVal.jstr "info")]) true 1
        (completePhase "c-uuid" (alistInsert "_broker_uuid" (JVal.jstr "c-uuid")
            [("method", JVal.jstr "ping")]) true 1
          (handle_response (alistInsert "_broker_uuid" (JVal.jstr "c-uuid")
              [("result", JVal.jstr "pong-c")])
            (handle_response (alistInsert "_broker_uuid" (JVal.jstr "d-uuid")
                [("result", JVal.jstr "pong-d")])
              (submitPhase "d-uuid" [("method", JVal.jstr "info")] 0
                (submitPhase "c-uuid" [("method", JVal.jstr "ping")] 0 initBroker))).1).1).1).2
      = ReqOutcome.resolved [("result", JVal.jstr "pong-d")] :=
  c2_no_cross_delivery "c-uuid" "d-uuid"
    [("method", JVal.jstr "ping")] [("method", JVal.jstr "info")]
    [("result", JVal.jstr "pong-c")] [("result", JVal.jstr "pong-d")]
    0 0 1 1 initBroker
    (by decide) (by decide) (by decide) rfl rfl rfl rfl

/-- C3: when a submit call completes (in particular on timeout), its entry is
removed from the pending registry in the same locked pop, so the id is no
longer pending afterward; a resolution for that id arriving later — on either
transport — is rejected as an unknown id with no state change, so it is never
re-delivered to any producer. -/
theorem c3_timeout_purges_entry
    (uuid : String) (reqData : JObj) (got : Bool) (now : ℚ) (st : BrokerState)
    (msg1 msg2 : JObj)
    (hu : uuid ≠ "")
    (h1 : alistLookup "_broker_uuid" msg1 = some (JVal.jstr uuid))
    (h2 : alistLookup "_broker_uuid" msg2 = some (JVal.jstr uuid)) :
    alistLookup uuid (completePhase uuid reqData got now st).1.pending = none ∧
    handle_response msg1 (completePhase uuid reqData got now st).1
      = ((completePhase uuid reqData got now st).1, RespResult.unknownId) ∧
    respCode (handle_response msg1 (completePhase uuid reqData got now st).1).2 = 404 ∧
    handle_socket_message msg2 (completePhase uuid reqData got now st).1
      = ((completePhase uuid reqData got now st).1, SockMsgResult.unknownId) := by
  have hnone : alistLookup uuid (completePhase uuid reqData got now st).1.pending = none := by
    rw [completePhase_pending]
    exact alistLookup_erase_self _ _
  have hr := handle_response_unknown hu h1 hnone
  exact ⟨hnone, hr, by rw [hr]; rfl, handle_socket_message_unknown h2 hnone⟩

/-- Witness for C3: a request that timed out (no resolution arrived, wait
returned false), followed by a late resolution for its id on each transport. -/
theorem c3_timeout_purges_entry_witness :
    alistLookup "w-uuid"
      (completePhase "w-uuid" [("method", JVal.jstr "ping")] false 30
        (submitPhase "w-uuid" [("method", JVal.jstr "ping")] 0 initBroker)).1.pending = none ∧
    handle_response [("_broker_uuid", JVal.jstr "w-uuid"), ("result", JVal.jstr "late")]
      (completePhase "w-uuid" [("method", JVal.jstr "ping")] false 30
        (submitPhase "w-uuid" [("method", JVal.jstr "ping")] 0 initBroker)).1
      = ((completePhase "w-uuid" [("method", JVal.jstr "ping")] false 30
          (submitPhase "w-uuid" [("method", JVal.jstr "ping")] 0 initBroker)).1,
         RespResult.unknownId) ∧
    respCode (handle_response [("_broker_uuid", JVal.jstr "w-uuid"), ("result", JVal.jstr "late")]
      (completePhase "w-uuid" [("method", JVal.jstr "ping")] false 30
        (submitPhase "w-uuid" [("method", JVal.jstr "ping")] 0 initBroker)).1).2 = 404 ∧
    handle_socket_message [("_broker_uuid", JVal.jstr "w-uuid"), ("data", JVal.jnum 7)]
      (completePhase "w-uuid" [("method", JVal.jstr "ping")] false 30
        (submitPhase "w-uuid" [("method", JVal.jstr "ping")] 0 initBroker)).1
      = ((completePhase "w-uuid" [("method", JVal.jstr "ping")] false 30
          (submitPhase "w-uuid" [("method", JVal.jstr "ping")] 0 initBroker)).1,
         SockMsgResult.unknownId) :=
  c3_timeout_purges_entry "w-uuid" [("method", JVal.jstr "ping")] false 30
    (submitPhase "w-uuid" [("method", JVal.jstr "ping")] 0 initBroker)
    [("_broker_uuid", JVal.jstr "w-uuid"), ("result", JVal.jstr "late")]
    [("_broker_uuid", JVal.jstr "w-uuid"), ("data", JVal.jnum 7)]
    (by decide) rfl rfl

/-- The delivered items followed by the remaining queue are exactly the
initial queue followed by the pushed items, for any trace of queue
operations. -/
theorem runQueue_delivered_append (ops : List QueueOp) :
    ∀ q : List JObj, (runQueue q ops).2 ++ (runQueue q ops).1 = q ++ pushedOf ops := by
  induction ops with
  | nil => intro q; simp [runQueue, pushedOf]
  | cons op ops ih =>
      intro q
      cases op with
      | push x => simp [runQueue, queueStep, pushedOf, ih]
      | pollPop =>
          cases q with
          | nil => simp [runQueue, queueStep, handle_poll_dequeue, pushedOf, ih]
          | cons x rest => simp [runQueue, queueStep, handle_poll_dequeue, pushedOf, ih]
      | socketPop ok =>
          cases q with
          | nil => simp [runQueue, queueStep, socketSendStep, pushedOf, ih]
          | cons x rest =>
              cases ok
              · simp [runQueue, queueStep, socketSendStep, queuePushFront, pushedOf, ih]
              · simp [runQueue, queueStep, socketSendStep, pushedOf, ih]

/-- C4: the delivery queue is FIFO across both consumer transports.  For any
trace of producer pushes, long-poll pops and socket pops (including failed
socket writes, whose `appendleft` re-insertion keeps the failed head in
place), the sequence of items delivered to consumers followed by the items
still queued equals the sequence of pushed items in push order — so if A is
pushed before B, A is dequeued before B. -/
theorem c4_queue_fifo (ops : List QueueOp) :
    (runQueue [] ops).2 ++ (runQueue [] ops).1 = pushedOf ops := by
  simpa using runQueue_delivered_append ops []

/-- C5: when the socket write of a dequeued item fails, the item is pushed
back via `appendleft` and becomes the head of the queue again, the session
loop breaks (so the `finally` teardown runs afterward), nothing is delivered,
and the very next pop — on either transport — returns exactly that item. -/
theorem c5_failed_write_requeues_head (x : JObj) (rest : List JObj) :
    socketSendStep false (x :: rest) = (x :: rest, none, true) ∧
    (x :: rest).head? = some x ∧
    handle_poll_dequeue (x :: rest) = (rest, some x) ∧
    socketSendStep true (x :: rest) = (rest, some x, false) :=
  ⟨rfl, rfl, rfl, rfl⟩

/-! ## History-buffer lemmas for C6 -/

theorem dequePush_length_le {α : Type} {q : List α} (x : α)
    (hcap : q.length ≤ RECENT_REQUESTS_CAP) :
    (dequePush RECENT_REQUESTS_CAP q x).length ≤ RECENT_REQUESTS_CAP := by
  unfold dequePush
  split
  · next h => simpa using h
  · next h =>
      have hq : q.length = RECENT_REQUESTS_CAP := le_antisymm hcap (not_lt.mp h)
      cases q with
      | nil => simp [RECENT_REQUESTS_CAP] at hq
      | cons a as =>
          simp only [List.length_cons] at hq
          simpa using le_of_eq hq

theorem foldl_dequePush_length_le {α : Type} (rs : List α) :
    ∀ init : List α, init.length ≤ RECENT_REQUESTS_CAP →
      (rs.foldl (dequePush RECENT_REQUESTS_CAP) init).length ≤ RECENT_REQUESTS_CAP := by
  induction rs with
  | nil => intro init h; simpa using h
  | cons r rs ih => intro init h; exact ih _ (dequePush_length_le r h)

theorem applyStatsOp_length_le (op : StatsOp) (s : Stats)
    (h : s.recent_requests.length ≤ RECENT_REQUESTS_CAP) :
    (applyStatsOp op s).recent_requests.length ≤ RECENT_REQUESTS_CAP := by
  cases op with
  | recordSuccess l r => simpa [applyStatsOp, statsRecordSuccess] using dequePush_length_le r h
  | recordTimeout r => simpa [applyStatsOp, statsRecordTimeout] using dequePush_length_le r h
  | recordFailure => simpa [applyStatsOp, statsRecordFailure] using h
  | loadHistory rs =>
      simpa [applyStatsOp, load_history] using foldl_dequePush_length_le rs [] (by simp)
  | clearHistory => simp [applyStatsOp, clear_history]

theorem runStats_length_le (ops : List StatsOp) :
    ∀ s : Stats, s.recent_requests.length ≤ RECENT_REQUESTS_CAP →
      (runStats s ops).recent_requests.length ≤ RECENT_REQUESTS_CAP := by
  induction ops with
  | nil => intro s h; simpa [runStats] using h
  | cons op ops ih => intro s h; exact ih _ (applyStatsOp_length_le op s h)

theorem dequePush_at_cap {α : Type} (q : List α) (x : α)
    (h : q.length = RECENT_REQUESTS_CAP) :
    dequePush RECENT_REQUESTS_CAP q x = q.tail ++ [x] := by
  unfold dequePush
  rw [h]
  simp

/-- A concrete history record, for counterexamples and witnesses. -/
def sampleRecord : HistRecord :=
  { uuid := "r1", method := JVal.jstr "ping", latency_ms := 10, success := true
    error := none, timestamp := 0, request_payload := [], response_payload := [] }

/-- A second concrete history record. -/
def sampleRecord2 : HistRecord :=
  { sampleRecord with uuid := "r2" }

/-- C6 counterexample: a history load is not an explicit clear, yet it removes
every existing record in bulk — after two timeout appends, applying
`load_history` with an empty decoded file leaves the buffer empty.  This
refutes the clause that records are removed in bulk only by explicit clear. -/
theorem c6_counterexample_load_removes_in_bulk :
    (runStats initStats
        [StatsOp.recordTimeout sampleRecord, StatsOp.recordTimeout sampleRecord2]
      ).recent_requests.length = 2 ∧
    (applyStatsOp (StatsOp.loadHistory [])
        (runStats initStats
          [StatsOp.recordTimeout sampleRecord, StatsOp.recordTimeout sampleRecord2])
      ).recent_requests = [] ∧
    StatsOp.loadHistory [] ≠ StatsOp.clearHistory := by
  refine ⟨rfl, rfl, fun h => StatsOp.noConfusion h⟩

/-- C6 as amended: over every sequence of stats operations the history buffer
never exceeds its capacity of 100; when the buffer is at capacity an append
evicts exactly the oldest (leftmost) record; a history load replaces the whole
buffer with the loaded records regardless of prior contents; an explicit clear
empties it.  (The original claim's "removed in bulk only by explicit clear"
fails because a load also removes records in bulk — see the
counterexample.) -/
theorem c6_history_ring_buffer_amended :
    (∀ ops : List StatsOp,
      (runStats initStats ops).recent_requests.length ≤ RECENT_REQUESTS_CAP) ∧
    (∀ (q : List HistRecord) (r : HistRecord), q.length = RECENT_REQUESTS_CAP →
      dequePush RECENT_REQUESTS_CAP q r = q.tail ++ [r]) ∧
    (∀ (rs : List HistRecord) (s : Stats),
      (load_history rs s).recent_requests = rs.foldl (dequePush RECENT_REQUESTS_CAP) []) ∧
    (∀ s : Stats, (clear_history s).recent_requests = []) := by
  exact ⟨fun ops => runStats_length_le ops initStats (by simp [initStats]),
    fun q r h => dequePush_at_cap q r h,
    fun rs s => rfl,
    fun s => rfl⟩

/-- Witness for the amended C6, discharging the at-capacity hypothesis on a
concrete full buffer of 100 records. -/
theorem c6_history_ring_buffer_amended_witness :
    dequePush RECENT_REQUESTS_CAP (List.replicate 100 sampleRecord) sampleRecord2
      = (List.replicate 100 sampleRecord).tail ++ [sampleRecord2] :=
  c6_history_ring_buffer_amended.2.1 (List.replicate 100 sampleRecord) sampleRecord2
    (by simp [RECENT_REQUESTS_CAP])

/-! ## Average-latency lemmas for C7 -/

theorem runStats_avg_invariant (ops : List StatsOp) :
    ∀ s : Stats, s.avg_latency_ms = s.total_latency_ms / (s.requests_success : ℚ) →
      (runStats s ops).avg_latency_ms
        = (runStats s ops).total_latency_ms / ((runStats s ops).requests_success : ℚ) := by
  induction ops with
  | nil => intro s h; simpa [runStats] using h
  | cons op ops ih =>
      intro s h
      refine ih _ ?_
      cases op with
      | recordSuccess l r => simp [applyStatsOp, statsRecordSuccess]
      | recordTimeout r => simpa [applyStatsOp, statsRecordTimeout] using h
      | recordFailure => simpa [applyStatsOp, statsRecordFailure] using h
      | loadHistory rs => simpa [applyStatsOp, load_history] using h
      | clearHistory => simpa [applyStatsOp, clear_history] using h

theorem runStats_success_count (ops : List StatsOp) :
    ∀ s : Stats, (runStats s ops).requests_success
      = s.requests_success + (successLatencies ops).length := by
  induction ops with
  | nil => intro s; simp [runStats, successLatencies]
  | cons op ops ih =>
      intro s
      have h := ih (applyStatsOp op s)
      cases op with
      | recordSuccess l r =>
          simp only [runStats] at h ⊢
          rw [h]
          simp [applyStatsOp, statsRecordSuccess, successLatencies]
          omega
      | recordTimeout r =>
          simp only [runStats] at h ⊢
          rw [h]
          simp [applyStatsOp, statsRecordTimeout, successLatencies]
      | recordFailure =>
          simp only [runStats] at h ⊢
          rw [h]
          simp [applyStatsOp, statsRecordFailure, successLatencies]
      | loadHistory rs =>
          simp only [runStats] at h ⊢
          rw [h]
          simp [applyStatsOp, load_history, successLatencies]
      | clearHistory =>
          simp only [runStats] at h ⊢
          rw [h]
          simp [applyStatsOp, clear_history, successLatencies]

theorem runStats_total_latency (ops : List StatsOp) :
    ∀ s : Stats, (runStats s ops).total_latency_ms
      = s.total_latency_ms + (successLatencies ops).sum := by
  induction ops with
  | nil => intro s; simp [runStats, successLatencies]
  | cons op ops ih =>
      intro s
      have h := ih (applyStatsOp op s)
      cases op with
      | recordSuccess l r =>
          simp only [runStats] at h ⊢
          rw [h]
          simp [applyStatsOp, statsRecordSuccess, successLatencies]
          ring
      | recordTimeout r =>
          simp only [runStats] at h ⊢
          rw [h]
          simp [applyStatsOp, statsRecordTimeout, successLatencies]
      | recordFailure =>
          simp only [runStats] at h ⊢
          rw [h]
          simp [applyStatsOp, statsRecordFailure, successLatencies]
      | loadHistory rs =>
          simp only [runStats] at h ⊢
          rw [h]
          simp [applyStatsOp, load_history, successLatencies]
      | clearHistory =>
          simp only [runStats] at h ⊢
          rw [h]
          simp [applyStatsOp, clear_history, successLatencies]

/-- C7: the running average latency is the cumulative mean over successful
requests only.  For every operation sequence starting from the initial stats,
the success counter equals the number of success records, the accumulated
total equals the sum of their latencies, and the stored average equals that
sum divided by that count (timeouts, failures, loads and clears leave all
three untouched).  Concretely, after successes with latencies 10, 20 and 30
the average is 20. -/
theorem c7_avg_latency_cumulative_mean (ops : List StatsOp) :
    (runStats initStats ops).requests_success = (successLatencies ops).length ∧
    (runStats initStats ops).total_latency_ms = (successLatencies ops).sum ∧
    (runStats initStats ops).avg_latency_ms
      = (successLatencies ops).sum / ((successLatencies ops).length : ℚ) ∧
    (runStats initStats
        [StatsOp.recordSuccess 10 sampleRecord, StatsOp.recordSuccess 20 sampleRecord,
         StatsOp.recordSuccess 30 sampleRecord]).avg_latency_ms = 20 := by
  have hc : (runStats initStats ops).requests_success = (successLatencies ops).length := by
    simpa [initStats] using runStats_success_count ops initStats
  have ht : (runStats initStats ops).total_latency_ms = (successLatencies ops).sum := by
    simpa [initStats] using runStats_total_latency ops initStats
  have ha := runStats_avg_invariant ops initStats (by simp [initStats])
  refine ⟨hc, ht, ?_, ?_⟩
  · rw [ha, hc, ht]
  · norm_num [runStats, applyStatsOp, statsRecordSuccess, initStats]

/-- C8: starting from the disconnected initial state, both liveness paths —
the periodic recomputation `update_lr_connection_status` and the on-poll
update in `handle_poll` — broadcast a transition event exactly when the stored
connected flag actually changes, and never on a check or poll that leaves it
unchanged. -/
theorem c8_liveness_event_only_on_change (s : Stats) (now : ℚ) :
    ((update_lr_connection_status now s).2 = true ↔
      (update_lr_connection_status now s).1.lightroom_connected ≠ s.lightroom_connected) ∧
    ((handle_poll_status now s).2 = true ↔
      (handle_poll_status now s).1.lightroom_connected ≠ s.lightroom_connected) ∧
    initStats.lightroom_connected = false := by
  refine ⟨?_, ?_, rfl⟩
  · rcases h : s.lightroom_last_poll with _ | lp
    · simp [update_lr_connection_status, h]
    · cases hcon : s.lightroom_connected <;>
        by_cases hp : now - lp < LR_CONNECTION_TIMEOUT <;>
          simp [update_lr_connection_status, h, hcon, hp]
  · cases hcon : s.lightroom_connected <;> simp [handle_poll_status, hcon]

/-- Concrete state for the C9 counterexample: an authoritative socket session
whose loop last stamped consumer activity at time 10. -/
def c9State : BrokerState :=
  { pending := [], queue := []
    stats := { initStats with lightroom_last_poll := some 10, lightroom_connected := true }
    socket_client := some 1 }

/-- C9 counterexample: teardown releases the slot but does NOT mark the
consumer-activity timestamp stale — `lightroom_last_poll` keeps its value, and
a liveness check run right after the teardown still reports connected (and
emits no transition), because the loop had stamped activity just before the
teardown.  This refutes the clause that teardown marks the timestamp stale so
the monitor subsequently reports disconnected. -/
theorem c9_counterexample_teardown_not_stale :
    (socketTeardown c9State).socket_client = none ∧
    (socketTeardown c9State).stats.lightroom_last_poll = some 10 ∧
    c9State.stats.lightroom_last_poll = some 10 ∧
    (update_lr_connection_status 10 (socketTeardown c9State).stats).1.lightroom_connected
      = true ∧
    (update_lr_connection_status 10 (socketTeardown c9State).stats).2 = false := by
  refine ⟨rfl, rfl, rfl, ?_, ?_⟩ <;>
    simp [c9State, socketTeardown, update_lr_connection_status, initStats,
      LR_CONNECTION_TIMEOUT]

/-- C9 as amended: socket-session teardown releases the authoritative slot
and leaves the broker stats — in particular the consumer-activity timestamp —
completely untouched; the timestamp merely stops being refreshed, so the
liveness monitor reports disconnected only once the liveness timeout has
elapsed since the last recorded activity. -/
theorem c9_teardown_amended (st : BrokerState) :
    (socketTeardown st).socket_client = none ∧
    (socketTeardown st).stats = st.stats ∧
    (∀ now lp : ℚ, st.stats.lightroom_last_poll = some lp →
      LR_CONNECTION_TIMEOUT ≤ now - lp →
      (update_lr_connection_status now (socketTeardown st).stats).1.lightroom_connected
        = false) := by
  refine ⟨rfl, rfl, ?_⟩
  intro now lp hlp hle
  have hstats : (socketTeardown st).stats = st.stats := rfl
  rw [hstats]
  simp only [update_lr_connection_status, hlp]
  simpa using not_lt.mpr hle

/-- Witness for the amended C9: checking the torn-down session's state at
time 20, ten seconds after the last activity stamp, reports disconnected. -/
theorem c9_teardown_amended_witness :
    (update_lr_connection_status 20 (socketTeardown c9State).stats).1.lightroom_connected
      = false :=
  (c9_teardown_amended c9State).2.2 20 10 rfl (by norm_num [LR_CONNECTION_TIMEOUT])

/-- Reduction of the completion phase when the stored response is the empty
object: `not pending_data.get("response")` is true for an empty dict, so the
timeout branch is taken even though the event fired in time. -/
theorem completePhase_timeout_of_empty {uuid : String} {st : BrokerState} {e : PendingEntry}
    (reqData : JObj) (now : ℚ)
    (hp : alistLookup uuid st.pending = some e)
    (hr : e.response = some ([] : JObj)) :
    completePhase uuid reqData true now st
      = timeoutOutcome uuid reqData now { st with pending := alistErase uuid st.pending } := by
  simp [completePhase, hp, hr]

/-- C10: a consumer response that arrives before the deadline for a pending id
but carries no fields besides the correlation id is accepted by the response
endpoint (200 ok) and signals the waiter (event set, empty response object
stored), yet the submitting producer still takes the 504 timeout branch and
the request is counted as a timeout. -/
theorem c10_empty_response_counted_as_timeout
    (uuid : String) (e : PendingEntry) (reqData : JObj) (now : ℚ) (st : BrokerState)
    (hu : uuid ≠ "")
    (hp : alistLookup uuid st.pending = some e) :
    (handle_response [("_broker_uuid", JVal.jstr uuid)] st).2 = RespResult.ok ∧
    respCode (handle_response [("_broker_uuid", JVal.jstr uuid)] st).2 = 200 ∧
    alistLookup uuid (handle_response [("_broker_uuid", JVal.jstr uuid)] st).1.pending
      = some { e with response := some [], event := true } ∧
    (completePhase uuid reqData true now
        (handle_response [("_broker_uuid", JVal.jstr uuid)] st).1).2
      = ReqOutcome.timeout (timeoutErrorResponse reqData) ∧
    outcomeCode (completePhase uuid reqData true now
        (handle_response [("_broker_uuid", JVal.jstr uuid)] st).1).2 = 504 ∧
    (completePhase uuid reqData true now
        (handle_response [("_broker_uuid", JVal.jstr uuid)] st).1).1.stats.requests_timeout
      = (handle_response [("_broker_uuid", JVal.jstr uuid)] st).1.stats.requests_timeout
        + 1 := by
  have hm : alistLookup "_broker_uuid" ([("_broker_uuid", JVal.jstr uuid)] : JObj)
      = some (JVal.jstr uuid) := by simp [alistLookup]
  have hfound := handle_response_found hu hm hp
  have hres : resolveEntry [("_broker_uuid", JVal.jstr uuid)] e
      = { e with response := some [], event := true } := by
    simp [resolveEntry, alistErase]
  have hp2 : alistLookup uuid
      (handle_response [("_broker_uuid", JVal.jstr uuid)] st).1.pending
      = some ({ e with response := some ([] : JObj), event := true }) := by
    rw [hfound]
    show alistLookup uuid
      (alistInsert uuid (resolveEntry [("_broker_uuid", JVal.jstr uuid)] e) st.pending)
      = _
    rw [alistLookup_insert_self, hres]
  have hct := completePhase_timeout_of_empty reqData now hp2 rfl
  refine ⟨by rw [hfound], by rw [hfound]; rfl, hp2, ?_, ?_, ?_⟩
  · rw [hct]
    simp [timeoutOutcome]
  · rw [hct]
    simp [timeoutOutcome, outcomeCode]
  · rw [hct]
    simp [timeoutOutcome, statsRecordTimeout]

/-- Witness for C10: a freshly submitted ping request whose consumer response
is exactly the correlation id and nothing else. -/
theorem c10_empty_response_counted_as_timeout_witness :
    (handle_response [("_broker_uuid", JVal.jstr "e-uuid")]
        (submitPhase "e-uuid" [("method", JVal.jstr "ping")] 0 initBroker)).2
      = RespResult.ok ∧
    respCode (handle_response [("_broker_uuid", JVal.jstr "e-uuid")]
        (submitPhase "e-uuid" [("method", JVal.jstr "ping")] 0 initBroker)).2 = 200 ∧
    alistLookup "e-uuid" (handle_response [("_broker_uuid", JVal.jstr "e-uuid")]
        (submitPhase "e-uuid" [("method", JVal.jstr "ping")] 0 initBroker)).1.pending
      = some { request := alistInsert "_broker_uuid" (JVal.jstr "e-uuid")
                 [("method", JVal.jstr "ping")]
               response := some [], event := true, started_at := 0 } ∧
    (completePhase "e-uuid" [("method", JVal.jstr "ping")] true 1
        (handle_response [("_broker_uuid", JVal.jstr "e-uuid")]
          (submitPhase "e-uuid" [("method", JVal.jstr "ping")] 0 initBroker)).1).2
      = ReqOutcome.timeout (timeoutErrorResponse [("method", JVal.jstr "ping")]) ∧
    outcomeCode (completePhase "e-uuid" [("method", JVal.jstr "ping")] true 1
        (handle_response [("_broker_uuid", JVal.jstr "e-uuid")]
          (submitPhase "e-uuid" [("method", JVal.jstr "ping")] 0 initBroker)).1).2 = 504 ∧
    (completePhase "e-uuid" [("method", JVal.jstr "ping")] true 1
        (handle_response [("_broker_uuid", JVal.jstr "e-uuid")]
          (submitPhase "e-uuid" [("method", JVal.jstr "ping")] 0 initBroker)).1
      ).1.stats.requests_timeout
      = (handle_response [("_broker_uuid", JVal.jstr "e-uuid")]
          (submitPhase "e-uuid" [("method", JVal.jstr "ping")] 0 initBroker)
        ).1.stats.requests_timeout + 1 :=
  c10_empty_response_counted_as_timeout "e-uuid"
    { request := alistInsert "_broker_uuid" (JVal.jstr "e-uuid") [("method", JVal.jstr "ping")]
      response := none, event := false, started_at := 0 }
    [("method", JVal.jstr "ping")] 1
    (submitPhase "e-uuid" [("method", JVal.jstr "ping")] 0 initBroker)
    (by decide) rfl

end LrBroker
